import Mathlib

/-!
Verification development for the dbus-python high-level bus module
(`dbus/_dbus.py`).  The Python code is shallowly embedded: each method of
`Bus` that the claims mention becomes a pure Lean function, with the mutable
state (`_match_rule_tree`, daemon-side registered match rules, the
process-wide `_shared_instances` registry) passed explicitly.  The classes
`SignalMatchRule` and `SignalMatchTree` live in `matchrules.py`, which is not
part of the provided sources; those definitions are modelled from the spec
(sections 3, 4.1, 4.2 and 6) and are marked as such in their doc comments.
-/

set_option autoImplicit false

namespace DBusSpec

/-- The libdbus message-type constant for signals (`MESSAGE_TYPE_SIGNAL`). -/
def MESSAGE_TYPE_SIGNAL : Nat := 4

/-- The libdbus message-type constant for method calls, used only to build
non-signal probe messages in examples. -/
def MESSAGE_TYPE_METHOD_CALL : Nat := 1

/-- The libdbus constant `HANDLER_RESULT_NOT_YET_HANDLED` returned by a
filter that declines a message. -/
def HANDLER_RESULT_NOT_YET_HANDLED : Nat := 1

/-- Models Python `str.startswith`: whether `p` is a prefix of `s`.  Stated
over the underlying character lists so that it reduces in the kernel. -/
def strStartsWith (s p : String) : Bool := p.data.isPrefixOf s.data

/-- Models Python slicing `s[n:]`: drop the first `n` characters. -/
def strDrop (s : String) (n : Nat) : String := ⟨s.data.drop n⟩

/-- Models Python `str.strip()` as performed by `int`: remove surrounding
whitespace. -/
def stripWs (l : List Char) : List Char :=
  ((l.dropWhile Char.isWhitespace).reverse.dropWhile Char.isWhitespace).reverse

/-- Value of digit characters, accumulated left to right; `none` when a
non-digit character occurs. -/
def digitsAcc : Nat → List Char → Option Nat
  | acc, [] => some acc
  | acc, c :: rest =>
    if c.isDigit then digitsAcc (acc * 10 + (c.toNat - 48)) rest else none

/-- Numeric value of a non-empty all-digit character list, `none` otherwise. -/
def digitsVal : List Char → Option Nat
  | [] => none
  | l => digitsAcc 0 l

/-- Models Python `int(s)` on the fragment relevant to `argN` keyword
suffixes: optional surrounding whitespace, an optional single sign, then one
or more decimal digits.  Returns `none` where Python raises `ValueError`. -/
def pyInt : String → Option Int
  | s =>
    match stripWs s.data with
    | '-' :: rest => (digitsVal rest).map (fun n => -(n : Int))
    | '+' :: rest => (digitsVal rest).map (fun n => (n : Int))
    | l => (digitsVal l).map (fun n => (n : Int))

/-- Insert a positional-argument constraint into an index-sorted association
list, overwriting any previous constraint on the same index.  This models
the Python dict assignment `args_dict[num] = value`. -/
def insertArg (n : Int) (v : String) : List (Int × String) → List (Int × String)
  | [] => [(n, v)]
  | (m, w) :: rest =>
    if n < m then (n, v) :: (m, w) :: rest
    else if n = m then (n, v) :: rest
    else (m, w) :: insertArg n v rest

/-- Loop body of `Bus._create_args_dict`: iterate over the keyword
arguments; keys starting with `arg` have their suffix parsed by `int` and
recorded, `sender_keyword` and `path_keyword` are skipped, and any other key
raises `TypeError`.  The accumulator is `none` until the first `arg` key is
seen, like the Python `args_dict = None` initialisation. -/
def createArgsLoop :
    Option (List (Int × String)) → List (String × String) →
      Except String (Option (List (Int × String)))
  | acc, [] => .ok acc
  | acc, (key, value) :: rest =>
    if strStartsWith key "arg" then
      match pyInt (strDrop key 3) with
      | some n => createArgsLoop (some (insertArg n value (acc.getD []))) rest
      | none => .error ("Invalid arg index " ++ strDrop key 3)
    else if key = "sender_keyword" ∨ key = "path_keyword" then
      createArgsLoop acc rest
    else
      .error ("Unknown keyword " ++ key)

/-- Embeds `Bus._create_args_dict` (`_dbus.py` lines 188-207). -/
def _create_args_dict (keywords : List (String × String)) :
    Except String (Option (List (Int × String))) :=
  createArgsLoop none keywords

/-- Modelled from the spec: the Match Pattern data type of `matchrules.py`
(`SignalMatchRule`), section 3 — four independently optional string filter
fields, optional positional-argument constraints, an ordered callback list,
and the two keyword-binding names.  Handlers are identified by `Nat`. -/
structure SignalMatchRule where
  signal_name : Option String
  dbus_interface : Option String
  sender : Option String
  path : Option String
  args : Option (List (Int × String))
  handlers : List Nat
  sender_keyword : Option String
  path_keyword : Option String
deriving DecidableEq

/-- Modelled from the spec: the `SignalMatchRule(signal_name, dbus_interface,
named_service, path)` constructor — no positional constraints, no handlers,
no keyword bindings yet. -/
def mkRule (sn di ns p : Option String) : SignalMatchRule :=
  ⟨sn, di, ns, p, none, [], none, none⟩

/-- Modelled from the spec: `add_handler` appends a callback, insertion
order being dispatch order. -/
def addHandler (r : SignalMatchRule) (h : Nat) : SignalMatchRule :=
  { r with handlers := r.handlers ++ [h] }

/-- Modelled from the spec: `add_args_match` records the positional
constraints on the rule. -/
def addArgsMatch (r : SignalMatchRule) (d : List (Int × String)) : SignalMatchRule :=
  { r with args := some d }

/-- Apply the Python pattern `if args_dict: match_rule.add_args_match
(args_dict)` — `None` and the empty dict are both falsy. -/
def applyArgsDict (r : SignalMatchRule) : Option (List (Int × String)) → SignalMatchRule
  | none => r
  | some d => if d.isEmpty then r else addArgsMatch r d

/-- Modelled from the spec (section 4.1): one optional filter field of a
stored pattern is satisfied when absent, and otherwise requires the probe
field to be present and equal. -/
def fieldOk : Option String → Option String → Bool
  | none, _ => true
  | some v, mf => mf == some v

/-- Modelled from the spec (section 4.1): one positional constraint
`(index, value)` requires the message argument list to have an entry at that
index equal to the value; indices are non-negative. -/
def argOk (margs : List String) (c : Int × String) : Bool :=
  decide (0 ≤ c.1) && (margs.get? c.1.toNat == some c.2)

/-- Modelled from the spec (section 4.1): the conjunctive matching
predicate of a stored pattern against a probe rule plus the probe message's
positional arguments. -/
def ruleMatches (p probe : SignalMatchRule) (margs : List String) : Bool :=
  fieldOk p.signal_name probe.signal_name &&
  fieldOk p.dbus_interface probe.dbus_interface &&
  fieldOk p.sender probe.sender &&
  fieldOk p.path probe.path &&
  (match p.args with
   | none => true
   | some l => l.all (argOk margs))

/-- An inbound message as delivered by the transport: type tag, the four
header fields, and the positional argument values. -/
structure Message where
  type : Nat
  interface : Option String
  sender : Option String
  path : Option String
  member : Option String
  args : List String
deriving DecidableEq

/-- One callback invocation performed during dispatch: the handler, the
message's positional arguments, and the keyword-bound sender and path
values when the pattern requested them. -/
structure Invocation where
  handler : Nat
  args : List String
  kwSender : Option (String × Option String)
  kwPath : Option (String × Option String)
deriving DecidableEq

/-- Modelled from the spec (section 4.3 step 3): the invocation of one
handler of a matched pattern for a message. -/
def mkInvocation (p : SignalMatchRule) (h : Nat) (m : Message) : Invocation :=
  ⟨h, m.args, p.sender_keyword.map (fun k => (k, m.sender)),
    p.path_keyword.map (fun k => (k, m.path))⟩

/-- Modelled from the spec (sections 4.2, 4.3): `SignalMatchTree.
exec_matches` — walk the stored patterns in insertion order and, for each
one matching the probe, invoke each of its callbacks in registration
order. -/
def exec_matches : List SignalMatchRule → SignalMatchRule → Message → List Invocation
  | [], _, _ => []
  | p :: rest, probe, m =>
    (if ruleMatches p probe m.args then p.handlers.map (fun h => mkInvocation p h m)
     else []) ++ exec_matches rest probe m

/-- Modelled from the spec (section 4.2): removal compares stored entries by
their filter fields only. -/
def filterFieldsEq (a b : SignalMatchRule) : Bool :=
  a.signal_name == b.signal_name && a.dbus_interface == b.dbus_interface &&
  a.sender == b.sender && a.path == b.path && a.args == b.args

/-- Modelled from the spec (section 4.2): effect of a removal key on one
stored entry — entries with different filter fields are untouched; with a
handler-less key a filter-equal entry is removed; with handlers on the key
only filter-equal entries containing one of those exact callbacks are
affected, losing those callbacks and being pruned when none remain. -/
def removeEntry (key p : SignalMatchRule) : Option SignalMatchRule :=
  if filterFieldsEq p key then
    match key.handlers with
    | [] => none
    | hs =>
      if p.handlers.any (fun h => hs.contains h) then
        let remaining := p.handlers.filter (fun h => !(hs.contains h))
        if remaining.isEmpty then none else some { p with handlers := remaining }
      else some p
  else some p

/-- Modelled from the spec (section 4.2): `SignalMatchTree.remove`. -/
def treeRemove (key : SignalMatchRule) (tree : List SignalMatchRule) :
    List SignalMatchRule :=
  tree.filterMap (removeEntry key)

/-- A single-quote character, used by the match-rule grammar. -/
def sq : String := "\x27"

/-- One `key='value'` pair of the daemon match-rule grammar. -/
def quoteKV (k v : String) : String := k ++ "=" ++ sq ++ v ++ sq

/-- Modelled from the spec (section 6): serialisation of a rule to the
daemon's textual match-rule grammar — `type='signal'` followed by the
present fields as comma-separated `key='value'` pairs, wildcards omitted. -/
def reprRule (r : SignalMatchRule) : String :=
  let s0 := "type=" ++ sq ++ "signal" ++ sq
  let s1 := match r.dbus_interface with
            | none => s0
            | some i => s0 ++ "," ++ quoteKV "interface" i
  let s2 := match r.signal_name with
            | none => s1
            | some n => s1 ++ "," ++ quoteKV "member" n
  let s3 := match r.sender with
            | none => s2
            | some n => s2 ++ "," ++ quoteKV "sender" n
  let s4 := match r.path with
            | none => s3
            | some p => s3 ++ "," ++ quoteKV "path" p
  match r.args with
  | none => s4
  | some l => s4 ++ String.join (l.map (fun c => "," ++ quoteKV ("arg" ++ toString c.1) c.2))

/-- Mutable state of one `Bus` connection: the local match index
(`_match_rule_tree`, stored patterns in insertion order) and the sequence of
match-rule strings registered daemon-side through `bus_add_match`. -/
structure BusState where
  tree : List SignalMatchRule
  daemonRules : List String
deriving DecidableEq

/-- External collaborators of a `Bus`: the `GetNameOwner` name resolver
(`none` when the well-known name has no current owner) and the daemon's
acceptance of a match-rule string by `bus_add_match`. -/
structure Env where
  owner : String → Option String
  daemonAccepts : String → Bool

/-- Errors surfaced synchronously by the subscription API. -/
inductive DBusError where
  | typeError (msg : String)
  | unknownService (name : String)
  | daemonRegistration (ruleStr : String)
deriving DecidableEq

/-- Observable side effects of a subscription call, in the order they are
performed. -/
inductive Event where
  | getNameOwner (name : String)
  | treeAdd (rule : SignalMatchRule)
  | busAddMatch (ruleStr : String)
  | treeRemoveKey (key : SignalMatchRule)
deriving DecidableEq

/-- Embeds the sender-resolution step shared by `add_signal_receiver` and
`remove_signal_receiver` (`_dbus.py` lines 249-251 and 279-281): a truthy
`named_service` whose first character is not `:` is replaced by the result
of `GetNameOwner`, whose failure aborts the call. -/
def resolveService (owner : String → Option String) (ns : Option String) :
    Except DBusError (Option String) × List Event :=
  match ns with
  | none => (.ok none, [])
  | some s =>
    if s ≠ "" ∧ strStartsWith s ":" = false then
      match owner s with
      | some u => (.ok (some u), [.getNameOwner s])
      | none => (.error (.unknownService s), [.getNameOwner s])
    else (.ok (some s), [])

/-- Embeds `Bus.add_signal_receiver` (`_dbus.py` lines 209-268), in source
order: parse the keyword arguments, resolve the sender, build the rule, set
the two keyword-binding fields, record positional constraints, append the
handler, insert into the local match tree (line 266), then register the
serialised rule with the daemon (line 268).  Returns the outcome, the state
after the call (mutations before an exception persist), and the trace of
side effects. -/
def add_signal_receiver (env : Env) (st : BusState) (handler : Nat)
    (signal_name dbus_interface named_service path : Option String)
    (keywords : List (String × String)) :
    Except DBusError Unit × BusState × List Event :=
  match _create_args_dict keywords with
  | .error msg => (.error (.typeError msg), st, [])
  | .ok args_dict =>
    match resolveService env.owner named_service with
    | (.error e, ev) => (.error e, st, ev)
    | (.ok ns, ev) =>
      let r0 := mkRule signal_name dbus_interface ns path
      let r1 := { r0 with sender_keyword := keywords.lookup "sender_keyword",
                          path_keyword := keywords.lookup "path_keyword" }
      let r2 := applyArgsDict r1 args_dict
      let r := addHandler r2 handler
      let st1 : BusState := { st with tree := st.tree ++ [r] }
      let ruleStr := reprRule r
      if env.daemonAccepts ruleStr then
        (.ok (), { st1 with daemonRules := st1.daemonRules ++ [ruleStr] },
          ev ++ [.treeAdd r, .busAddMatch ruleStr])
      else
        (.error (.daemonRegistration ruleStr), st1, ev ++ [.treeAdd r])

/-- Embeds `Bus.remove_signal_receiver` (`_dbus.py` lines 270-293): same
parsing and resolution, build the removal key (adding the handler only when
one is supplied), remove from the local tree.  No daemon-side
deregistration is performed. -/
def remove_signal_receiver (env : Env) (st : BusState) (handler : Option Nat)
    (signal_name dbus_interface named_service path : Option String)
    (keywords : List (String × String)) :
    Except DBusError Unit × BusState × List Event :=
  match _create_args_dict keywords with
  | .error msg => (.error (.typeError msg), st, [])
  | .ok args_dict =>
    match resolveService env.owner named_service with
    | (.error e, ev) => (.error e, st, ev)
    | (.ok ns, ev) =>
      let r0 := mkRule signal_name dbus_interface ns path
      let r1 := applyArgsDict r0 args_dict
      let r := match handler with
               | some h => addHandler r1 h
               | none => r1
      (.ok (), { st with tree := treeRemove r st.tree }, ev ++ [.treeRemoveKey r])

/-- Embeds `Bus._signal_func` (`_dbus.py` lines 299-310): non-signal
messages are answered with `HANDLER_RESULT_NOT_YET_HANDLED` immediately;
for signals a probe rule is built from the message's member, interface,
sender and path, and the tree's matches are executed.  The Python function
falls off the end (returns `None`) in the signal case.  The result is the
state after the call, the returned handler result, and the invocations
performed. -/
def _signal_func (st : BusState) (m : Message) :
    BusState × Option Nat × List Invocation :=
  if m.type ≠ MESSAGE_TYPE_SIGNAL then
    (st, some HANDLER_RESULT_NOT_YET_HANDLED, [])
  else
    (st, none, exec_matches st.tree (mkRule m.member m.interface m.sender m.path) m)

/-- One call of the subscription API, for reasoning about arbitrary
subscribe/unsubscribe sequences. -/
inductive BusOp where
  | subscribe (handler : Nat) (signal_name dbus_interface named_service path : Option String)
      (keywords : List (String × String))
  | unsubscribe (handler : Option Nat)
      (signal_name dbus_interface named_service path : Option String)
      (keywords : List (String × String))

/-- State reached after one subscription-API call. -/
def applyOp (env : Env) (st : BusState) : BusOp → BusState
  | .subscribe h sn di ns p kws => (add_signal_receiver env st h sn di ns p kws).2.1
  | .unsubscribe h sn di ns p kws => (remove_signal_receiver env st h sn di ns p kws).2.1

/-- State reached after a sequence of subscription-API calls. -/
def runOps (env : Env) (st : BusState) : List BusOp → BusState
  | [] => st
  | op :: rest => runOps env (applyOp env st op) rest

/-- The `_dbus_bindings.BUS_SESSION` constant. -/
def BUS_SESSION : Nat := 0

/-- The `_dbus_bindings.BUS_SYSTEM` constant. -/
def BUS_SYSTEM : Nat := 1

/-- The `_dbus_bindings.BUS_STARTER` constant. -/
def BUS_STARTER : Nat := 2

/-- Whether a bus type is one of the three known identities, i.e. whether
`Bus.__new__` can select a subclass for it. -/
def isValidBusType (bt : Nat) : Bool :=
  bt == BUS_SESSION || bt == BUS_SYSTEM || bt == BUS_STARTER

/-- Process-wide state for `Bus.__new__`: the shared-instance registry
(`_shared_instances`, bus type mapped to instance identity — presence in
the map models the weakly-held instance being alive), the next fresh
instance identity, and the instances for which a transport connection was
established via `bus_get`. -/
structure GlobalState where
  shared : List (Nat × Nat)
  nextId : Nat
  connections : List Nat
deriving DecidableEq

/-- Store an instance under a bus type in the shared registry. -/
def insertShared (k v : Nat) : List (Nat × Nat) → List (Nat × Nat)
  | [] => [(k, v)]
  | (a, b) :: rest =>
    if a == k then (k, v) :: rest else (a, b) :: insertShared k v rest

/-- Embeds `Bus.__new__` (`_dbus.py` lines 81-134), in source order: for a
non-private construction an existing shared instance for the bus type is
returned unchanged; otherwise an unknown bus type raises `ValueError`
before any object is created or any transport connection made; otherwise a
fresh instance is created, its transport connection established by
`bus_get`, and, unless private, the instance is stored in the shared
registry. -/
def busNew (st : GlobalState) (bt : Nat) (priv : Bool) :
    Except String Nat × GlobalState :=
  if !priv && (st.shared.lookup bt).isSome then
    (.ok ((st.shared.lookup bt).getD 0), st)
  else if isValidBusType bt then
    let i := st.nextId
    let st1 : GlobalState := ⟨st.shared, i + 1, st.connections ++ [i]⟩
    let st2 := if priv then st1 else { st1 with shared := insertShared bt i st1.shared }
    (.ok i, st2)
  else
    (.error ("invalid bus_type " ++ toString bt), st)

/-- One optional pattern field is satisfied by a probe field in the sense of
the claims: whenever the pattern field is present, the probe field is
present with an equal value; an absent pattern field is always satisfied. -/
def FieldSat (pf mf : Option String) : Prop :=
  ∀ v, pf = some v → mf = some v

/-- The claims' conjunctive matching condition of a stored pattern against
an incoming message's own member, interface, sender, path and positional
arguments. -/
def RuleMatchesSpec (p : SignalMatchRule) (m : Message) : Prop :=
  FieldSat p.signal_name m.member ∧
  FieldSat p.dbus_interface m.interface ∧
  FieldSat p.sender m.sender ∧
  FieldSat p.path m.path ∧
  ∀ l, p.args = some l → ∀ c ∈ l, 0 ≤ c.1 ∧ m.args.get? c.1.toNat = some c.2

/-- The match rule built by `add_signal_receiver` once parsing and
resolution have succeeded (`_dbus.py` lines 253-264), as a function of the
resolved sender `ns2` and the parsed positional constraints `d`. -/
def builtRule (sn di ns2 p : Option String) (kws : List (String × String))
    (d : Option (List (Int × String))) (h : Nat) : SignalMatchRule :=
  addHandler
    (applyArgsDict
      { mkRule sn di ns2 p with
          sender_keyword := kws.lookup "sender_keyword",
          path_keyword := kws.lookup "path_keyword" } d) h

/-- The removal key built by `remove_signal_receiver` once parsing and
resolution have succeeded (`_dbus.py` lines 283-289). -/
def builtRemoveKey (sn di ns2 p : Option String)
    (d : Option (List (Int × String))) : Option Nat → SignalMatchRule
  | some hh => addHandler (applyArgsDict (mkRule sn di ns2 p) d) hh
  | none => applyArgsDict (mkRule sn di ns2 p) d

/-- A bus connection with no subscriptions and no daemon-side rules. -/
def emptyBus : BusState := ⟨[], []⟩

/-- Environment where every name resolves to the unique name `:1.42` and the
daemon accepts every match rule. -/
def envAccept : Env := ⟨fun _ => some ":1.42", fun _ => true⟩

/-- Environment where every name resolves but the daemon rejects every
match-rule string. -/
def envReject : Env := ⟨fun _ => some ":1.42", fun _ => false⟩

/-- Environment where no well-known name has a current owner. -/
def envUnowned : Env := ⟨fun _ => none, fun _ => true⟩

/-- A concrete incoming signal message. -/
def sigMsg : Message :=
  ⟨MESSAGE_TYPE_SIGNAL, some "org.example.Iface", some ":1.7", some "/obj",
    some "Changed", ["a", "b"]⟩

/-- A concrete incoming non-signal (method-call) message. -/
def callMsg : Message :=
  ⟨MESSAGE_TYPE_METHOD_CALL, some "org.example.Iface", some ":1.7", some "/obj",
    some "Call", []⟩

/-- A bus connection holding one stored pattern for signal `Changed`. -/
def demoBus : BusState := ⟨[addHandler (mkRule (some "Changed") none none none) 9], []⟩

/-- A process-wide state holding one shared session-bus instance. -/
def demoGlobal : GlobalState := ⟨[(BUS_SESSION, 0)], 1, [0]⟩

/-- `addHandler` leaves the sender filter unchanged. -/
@[simp] theorem sender_addHandler (r : SignalMatchRule) (h : Nat) :
    (addHandler r h).sender = r.sender := rfl

/-- `applyArgsDict` leaves the sender filter unchanged. -/
@[simp] theorem sender_applyArgsDict (r : SignalMatchRule)
    (d : Option (List (Int × String))) : (applyArgsDict r d).sender = r.sender := by
  cases d with
  | none => rfl
  | some l =>
    simp only [applyArgsDict]
    split <;> rfl

/-- `addHandler` leaves the positional constraints unchanged. -/
@[simp] theorem args_addHandler (r : SignalMatchRule) (h : Nat) :
    (addHandler r h).args = r.args := rfl

/-- Resolution of an absent sender is the identity and performs no call. -/
theorem resolveService_none_eq (owner : String → Option String) :
    resolveService owner none = (.ok none, []) := rfl

/-- Resolution of an owned well-known name yields the owner's unique name. -/
theorem resolveService_resolved (owner : String → Option String) (s u : String)
    (hs : s ≠ "") (hc : strStartsWith s ":" = false) (hown : owner s = some u) :
    resolveService owner (some s) = (.ok (some u), [.getNameOwner s]) := by
  simp only [resolveService, if_pos (And.intro hs hc), hown]

/-- Resolution of an unowned well-known name fails. -/
theorem resolveService_unowned (owner : String → Option String) (s : String)
    (hs : s ≠ "") (hc : strStartsWith s ":" = false) (hown : owner s = none) :
    resolveService owner (some s) = (.error (.unknownService s), [.getNameOwner s]) := by
  simp only [resolveService, if_pos (And.intro hs hc), hown]

/-- The resolution step only ever emits a `getNameOwner` event. -/
theorem resolveService_ev (owner : String → Option String) (ns : Option String) :
    (resolveService owner ns).2 = [] ∨
      ∃ s, (resolveService owner ns).2 = [Event.getNameOwner s] := by
  cases ns with
  | none => exact Or.inl rfl
  | some s =>
    simp only [resolveService]
    split
    · cases owner s with
      | none => exact Or.inr ⟨s, rfl⟩
      | some u => exact Or.inr ⟨s, rfl⟩
    · exact Or.inl rfl

/-- A failed resolution is always an `unknownService` error. -/
theorem resolveService_error_shape (owner : String → Option String)
    (ns : Option String) (e : DBusError) (ev : List Event)
    (h : resolveService owner ns = (.error e, ev)) :
    ∃ s, e = .unknownService s ∧ ev = [Event.getNameOwner s] := by
  cases ns with
  | none => simp [resolveService] at h
  | some s =>
    simp only [resolveService] at h
    split at h
    · cases hown : owner s with
      | none =>
        rw [hown] at h
        simp only [Prod.mk.injEq, Except.error.injEq] at h
        exact ⟨s, h.1.symm, h.2.symm⟩
      | some u => rw [hown] at h; simp at h
    · simp at h

/-- Behaviour of `add_signal_receiver` when keyword parsing fails. -/
theorem add_kwError_eq (env : Env) (st : BusState) (h : Nat)
    (sn di ns p : Option String) (kws : List (String × String)) (msg : String)
    (hkw : _create_args_dict kws = .error msg) :
    add_signal_receiver env st h sn di ns p kws = (.error (.typeError msg), st, []) := by
  simp only [add_signal_receiver, hkw]

/-- Behaviour of `add_signal_receiver` when sender resolution fails. -/
theorem add_resError_eq (env : Env) (st : BusState) (h : Nat)
    (sn di ns p : Option String) (kws : List (String × String))
    (d : Option (List (Int × String))) (e : DBusError) (ev : List Event)
    (hkw : _create_args_dict kws = .ok d)
    (hres : resolveService env.owner ns = (.error e, ev)) :
    add_signal_receiver env st h sn di ns p kws = (.error e, st, ev) := by
  simp only [add_signal_receiver, hkw, hres]

/-- Behaviour of `add_signal_receiver` when everything succeeds: the rule is
appended to the local tree and then registered with the daemon. -/
theorem add_ok_eq (env : Env) (st : BusState) (h : Nat)
    (sn di ns p : Option String) (kws : List (String × String))
    (d : Option (List (Int × String))) (ns2 : Option String) (ev : List Event)
    (hkw : _create_args_dict kws = .ok d)
    (hres : resolveService env.owner ns = (.ok ns2, ev))
    (hacc : env.daemonAccepts (reprRule (builtRule sn di ns2 p kws d h)) = true) :
    add_signal_receiver env st h sn di ns p kws =
      (.ok (), ⟨st.tree ++ [builtRule sn di ns2 p kws d h],
         st.daemonRules ++ [reprRule (builtRule sn di ns2 p kws d h)]⟩,
       ev ++ [.treeAdd (builtRule sn di ns2 p kws d h),
              .busAddMatch (reprRule (builtRule sn di ns2 p kws d h))]) := by
  simp only [builtRule] at hacc
  simp only [add_signal_receiver, hkw, hres, hacc, if_true, builtRule]

/-- Behaviour of `add_signal_receiver` when the daemon rejects the rule
string: the error surfaces but the pattern is already in the local tree. -/
theorem add_rej_eq (env : Env) (st : BusState) (h : Nat)
    (sn di ns p : Option String) (kws : List (String × String))
    (d : Option (List (Int × String))) (ns2 : Option String) (ev : List Event)
    (hkw : _create_args_dict kws = .ok d)
    (hres : resolveService env.owner ns = (.ok ns2, ev))
    (hacc : env.daemonAccepts (reprRule (builtRule sn di ns2 p kws d h)) = false) :
    add_signal_receiver env st h sn di ns p kws =
      (.error (.daemonRegistration (reprRule (builtRule sn di ns2 p kws d h))),
       ⟨st.tree ++ [builtRule sn di ns2 p kws d h], st.daemonRules⟩,
       ev ++ [.treeAdd (builtRule sn di ns2 p kws d h)]) := by
  simp only [builtRule] at hacc
  simp only [add_signal_receiver, hkw, hres, hacc, Bool.false_eq_true, if_false, builtRule]

/-- Behaviour of `remove_signal_receiver` when keyword parsing fails. -/
theorem remove_kwError_eq (env : Env) (st : BusState) (hr : Option Nat)
    (sn di ns p : Option String) (kws : List (String × String)) (msg : String)
    (hkw : _create_args_dict kws = .error msg) :
    remove_signal_receiver env st hr sn di ns p kws
      = (.error (.typeError msg), st, []) := by
  simp only [remove_signal_receiver, hkw]

/-- Behaviour of `remove_signal_receiver` when sender resolution fails. -/
theorem remove_resError_eq (env : Env) (st : BusState) (hr : Option Nat)
    (sn di ns p : Option String) (kws : List (String × String))
    (d : Option (List (Int × String))) (e : DBusError) (ev : List Event)
    (hkw : _create_args_dict kws = .ok d)
    (hres : resolveService env.owner ns = (.error e, ev)) :
    remove_signal_receiver env st hr sn di ns p kws = (.error e, st, ev) := by
  simp only [remove_signal_receiver, hkw, hres]

/-- Behaviour of `remove_signal_receiver` when parsing and resolution
succeed: the key is removed locally and the daemon state is untouched. -/
theorem remove_ok_eq (env : Env) (st : BusState) (hr : Option Nat)
    (sn di ns p : Option String) (kws : List (String × String))
    (d : Option (List (Int × String))) (ns2 : Option String) (ev : List Event)
    (hkw : _create_args_dict kws = .ok d)
    (hres : resolveService env.owner ns = (.ok ns2, ev)) :
    remove_signal_receiver env st hr sn di ns p kws =
      (.ok (), ⟨treeRemove (builtRemoveKey sn di ns2 p d hr) st.tree, st.daemonRules⟩,
       ev ++ [.treeRemoveKey (builtRemoveKey sn di ns2 p d hr)]) := by
  cases hr with
  | none => simp only [remove_signal_receiver, hkw, hres, builtRemoveKey]
  | some hh => simp only [remove_signal_receiver, hkw, hres, builtRemoveKey]

/-- The three control paths of a subscription call. -/
theorem add_cases (env : Env) (ns : Option String) (kws : List (String × String)) :
    (∃ msg, _create_args_dict kws = .error msg) ∨
    (∃ d e ev, _create_args_dict kws = .ok d ∧
       resolveService env.owner ns = (.error e, ev)) ∨
    (∃ d ns2 ev, _create_args_dict kws = .ok d ∧
       resolveService env.owner ns = (.ok ns2, ev)) := by
  cases hkw : _create_args_dict kws with
  | error msg => exact Or.inl ⟨msg, rfl⟩
  | ok d =>
    cases hres : resolveService env.owner ns with
    | mk res ev =>
      cases res with
      | error e => exact Or.inr (Or.inl ⟨d, e, ev, rfl, rfl⟩)
      | ok ns2 => exact Or.inr (Or.inr ⟨d, ns2, ev, rfl, rfl⟩)

/-- C6: for every inbound message whose type is not the signal type,
`_signal_func` returns `HANDLER_RESULT_NOT_YET_HANDLED` without invoking
any callback, leaves the match index unchanged, and its answer does not
depend on the match index at all. -/
theorem C6_nonsignal_passthrough (st st2 : BusState) (m : Message)
    (h : m.type ≠ MESSAGE_TYPE_SIGNAL) :
    _signal_func st m = (st, some HANDLER_RESULT_NOT_YET_HANDLED, []) ∧
    (_signal_func st m).2 = (_signal_func st2 m).2 := by
  constructor
  · simp only [_signal_func, if_pos h]
  · simp only [_signal_func, if_pos h]

/-- C6 witness: a concrete method-call message is passed through untouched
whatever the index holds. -/
theorem C6_witness :
    callMsg.type ≠ MESSAGE_TYPE_SIGNAL ∧
    (_signal_func demoBus callMsg = (demoBus, some HANDLER_RESULT_NOT_YET_HANDLED, []) ∧
     (_signal_func demoBus callMsg).2 = (_signal_func emptyBus callMsg).2) :=
  ⟨by decide, C6_nonsignal_passthrough demoBus emptyBus callMsg (by decide)⟩

/-- C2: subscribing with a well-known (non-unique, non-empty) sender name
that has no current owner fails with the name-resolution error, leaves the
match index and the daemon-side rules unmodified, and performs no insertion
or registration side effect. -/
theorem C2_unowned_service_fails (env : Env) (st : BusState) (h : Nat)
    (sn di p : Option String) (kws : List (String × String))
    (d : Option (List (Int × String))) (s : String)
    (hkw : _create_args_dict kws = .ok d)
    (hs : s ≠ "") (hc : strStartsWith s ":" = false)
    (hown : env.owner s = none) :
    add_signal_receiver env st h sn di (some s) p kws
      = (.error (.unknownService s), st, [.getNameOwner s]) :=
  add_resError_eq env st h sn di (some s) p kws d (.unknownService s)
    [.getNameOwner s] hkw (resolveService_unowned env.owner s hs hc hown)

/-- C2 witness: subscribing to sender `org.example.Foo` with no owner. -/
theorem C2_witness :
    _create_args_dict [] = .ok none ∧
    "org.example.Foo" ≠ "" ∧
    strStartsWith "org.example.Foo" ":" = false ∧
    envUnowned.owner "org.example.Foo" = none ∧
    add_signal_receiver envUnowned emptyBus 7 none none (some "org.example.Foo") none []
      = (.error (.unknownService "org.example.Foo"), emptyBus,
         [.getNameOwner "org.example.Foo"]) :=
  ⟨rfl, by decide, by decide, rfl,
    C2_unowned_service_fails envUnowned emptyBus 7 none none none [] none
      "org.example.Foo" rfl (by decide) (by decide) rfl⟩

/-- The sender filter of the rule built by a subscription is the resolved
service name. -/
@[simp] theorem sender_builtRule (sn di ns2 p : Option String)
    (kws : List (String × String)) (d : Option (List (Int × String))) (h : Nat) :
    (builtRule sn di ns2 p kws d h).sender = ns2 := by
  simp [builtRule, mkRule]

/-- The sender filter of the removal key built by an unsubscription is the
resolved service name. -/
@[simp] theorem sender_builtRemoveKey (sn di ns2 p : Option String)
    (d : Option (List (Int × String))) (hr : Option Nat) :
    (builtRemoveKey sn di ns2 p d hr).sender = ns2 := by
  cases hr <;> simp [builtRemoveKey, mkRule]

/-- C1 counterexample: with a daemon that rejects the match-rule string, the
rejected subscription nonetheless leaves the pattern in the local match
index, and the recorded side effects show the local insertion happening
with no daemon registration — refuting the claimed register-then-insert
order at this concrete input. -/
theorem C1_counterexample :
    (add_signal_receiver envReject emptyBus 7 (some "NameAcquired") none none none []).1
        = .error (.daemonRegistration
            (reprRule (addHandler (mkRule (some "NameAcquired") none none none) 7))) ∧
    (add_signal_receiver envReject emptyBus 7 (some "NameAcquired") none none none []).2.2
        = [.treeAdd (addHandler (mkRule (some "NameAcquired") none none none) 7)] ∧
    (add_signal_receiver envReject emptyBus 7 (some "NameAcquired") none none none []).2.1.tree
        ≠ emptyBus.tree :=
  ⟨rfl, rfl, by decide⟩

/-- C1 (amended): the local match-index insertion is performed before the
daemon-side registration — every daemon registration event is immediately
preceded by the local insertion event — and if the transport rejects the
match-rule string the pattern has already been inserted into the local
index while the daemon-side rule list is unchanged. -/
theorem C1_insertion_precedes_registration (env : Env) (st : BusState) (h : Nat)
    (sn di ns p : Option String) (kws : List (String × String)) :
    (∀ s, Event.busAddMatch s ∈ (add_signal_receiver env st h sn di ns p kws).2.2 →
       ∃ ev0 r, (add_signal_receiver env st h sn di ns p kws).2.2
         = ev0 ++ [Event.treeAdd r, Event.busAddMatch s]) ∧
    (∀ s, (add_signal_receiver env st h sn di ns p kws).1
         = .error (.daemonRegistration s) →
       ∃ r, (add_signal_receiver env st h sn di ns p kws).2.1.tree = st.tree ++ [r] ∧
         (add_signal_receiver env st h sn di ns p kws).2.1.daemonRules = st.daemonRules) := by
  rcases add_cases env ns kws with ⟨msg, hkw⟩ | ⟨d, e, ev, hkw, hres⟩ |
    ⟨d, ns2, ev, hkw, hres⟩
  · rw [add_kwError_eq env st h sn di ns p kws msg hkw]
    refine ⟨fun s hs => ?_, fun s hs => ?_⟩
    · cases hs
    · simp at hs
  · rw [add_resError_eq env st h sn di ns p kws d e ev hkw hres]
    obtain ⟨s0, he, hev⟩ := resolveService_error_shape env.owner ns e ev hres
    refine ⟨fun s hs => ?_, fun s hs => ?_⟩
    · subst hev; simp at hs
    · subst he; simp at hs
  · have hev := resolveService_ev env.owner ns
    rw [hres] at hev
    cases hacc : env.daemonAccepts (reprRule (builtRule sn di ns2 p kws d h)) with
    | true =>
      rw [add_ok_eq env st h sn di ns p kws d ns2 ev hkw hres hacc]
      refine ⟨fun s hs => ?_, fun s hs => ?_⟩
      · have hsr : s = reprRule (builtRule sn di ns2 p kws d h) := by
          rcases hev with hev | ⟨s1, hev⟩ <;> subst hev <;> simp at hs <;> exact hs
        subst hsr
        exact ⟨ev, builtRule sn di ns2 p kws d h, rfl⟩
      · simp at hs
    | false =>
      rw [add_rej_eq env st h sn di ns p kws d ns2 ev hkw hres hacc]
      refine ⟨fun s hs => ?_, fun s hs => ?_⟩
      · rcases hev with hev | ⟨s1, hev⟩ <;> subst hev <;> simp at hs
      · exact ⟨builtRule sn di ns2 p kws d h, rfl, rfl⟩

/-- C1 (amended) witness: on a concrete accepted subscription the insertion
event immediately precedes the registration event, and on a concrete
rejected subscription the pattern is in the local index with daemon state
unchanged. -/
theorem C1_amended_witness :
    (Event.busAddMatch (reprRule (addHandler (mkRule (some "Sig") none none none) 7))
        ∈ (add_signal_receiver envAccept emptyBus 7 (some "Sig") none none none []).2.2 ∧
     ∃ ev0 r, (add_signal_receiver envAccept emptyBus 7 (some "Sig") none none none []).2.2
       = ev0 ++ [Event.treeAdd r,
           Event.busAddMatch (reprRule (addHandler (mkRule (some "Sig") none none none) 7))]) ∧
    ((add_signal_receiver envReject emptyBus 7 (some "Sig") none none none []).1
        = .error (.daemonRegistration
            (reprRule (addHandler (mkRule (some "Sig") none none none) 7))) ∧
     ∃ r, (add_signal_receiver envReject emptyBus 7 (some "Sig") none none none []).2.1.tree
         = emptyBus.tree ++ [r] ∧
       (add_signal_receiver envReject emptyBus 7 (some "Sig") none none none []).2.1.daemonRules
         = emptyBus.daemonRules) :=
  ⟨⟨by decide,
    (C1_insertion_precedes_registration envAccept emptyBus 7 (some "Sig") none none none []).1
      _ (by decide)⟩,
   ⟨rfl,
    (C1_insertion_precedes_registration envReject emptyBus 7 (some "Sig") none none none []).2
      _ rfl⟩⟩

/-- C4 counterexample: an empty `named_service` does not begin with `:` and
is falsy in Python, so the subscription stores the supplied value `""`
itself as the sender filter rather than the unique name `GetNameOwner`
would return — refuting the claim at this concrete input. -/
theorem C4_counterexample :
    envAccept.owner "" = some ":1.42" ∧
    strStartsWith "" ":" = false ∧
    (add_signal_receiver envAccept emptyBus 5 none none (some "") none []).1 = .ok () ∧
    (add_signal_receiver envAccept emptyBus 5 none none (some "") none []).2.1.tree.map
        SignalMatchRule.sender = [some ""] :=
  ⟨rfl, by decide, rfl, by decide⟩

/-- C4 (amended): when the supplied `named_service` is non-empty and does
not begin with `:`, every pattern newly built by `add_signal_receiver` and
every removal key built by `remove_signal_receiver` carries as sender the
unique name returned by `GetNameOwner`, never the well-known alias. -/
theorem C4_sender_resolved_to_unique (env : Env) (st : BusState) (h : Nat)
    (hr : Option Nat) (sn di p : Option String) (kws : List (String × String))
    (s u : String)
    (hs : s ≠ "") (hc : strStartsWith s ":" = false) (hown : env.owner s = some u) :
    (∃ l, (add_signal_receiver env st h sn di (some s) p kws).2.1.tree = st.tree ++ l ∧
       ∀ r ∈ l, r.sender = some u) ∧
    (∀ r, Event.treeRemoveKey r ∈ (remove_signal_receiver env st hr sn di (some s) p kws).2.2 →
       r.sender = some u) := by
  have hres := resolveService_resolved env.owner s u hs hc hown
  constructor
  · cases hkw : _create_args_dict kws with
    | error msg =>
      rw [add_kwError_eq env st h sn di (some s) p kws msg hkw]
      exact ⟨[], (List.append_nil _).symm, by simp⟩
    | ok d =>
      cases hacc : env.daemonAccepts (reprRule (builtRule sn di (some u) p kws d h)) with
      | true =>
        rw [add_ok_eq env st h sn di (some s) p kws d (some u) _ hkw hres hacc]
        refine ⟨[builtRule sn di (some u) p kws d h], rfl, fun r hrmem => ?_⟩
        rw [List.mem_singleton] at hrmem
        subst hrmem
        simp
      | false =>
        rw [add_rej_eq env st h sn di (some s) p kws d (some u) _ hkw hres hacc]
        refine ⟨[builtRule sn di (some u) p kws d h], rfl, fun r hrmem => ?_⟩
        rw [List.mem_singleton] at hrmem
        subst hrmem
        simp
  · cases hkw : _create_args_dict kws with
    | error msg =>
      rw [remove_kwError_eq env st hr sn di (some s) p kws msg hkw]
      intro r hrmem
      cases hrmem
    | ok d =>
      rw [remove_ok_eq env st hr sn di (some s) p kws d (some u) _ hkw hres]
      intro r hrmem
      have : r = builtRemoveKey sn di (some u) p d hr := by simp at hrmem; exact hrmem
      subst this
      simp

/-- C4 (amended) witness: subscribing and unsubscribing with the well-known
name `org.example.Foo`, owned by `:1.42`, stores `:1.42` as sender. -/
theorem C4_amended_witness :
    "org.example.Foo" ≠ "" ∧
    strStartsWith "org.example.Foo" ":" = false ∧
    envAccept.owner "org.example.Foo" = some ":1.42" ∧
    ((∃ l, (add_signal_receiver envAccept emptyBus 5 none none (some "org.example.Foo")
          none []).2.1.tree = emptyBus.tree ++ l ∧ ∀ r ∈ l, r.sender = some ":1.42") ∧
     (∀ r, Event.treeRemoveKey r ∈ (remove_signal_receiver envAccept emptyBus (some 5)
          none none (some "org.example.Foo") none []).2.2 → r.sender = some ":1.42")) :=
  ⟨by decide, by decide, rfl,
    C4_sender_resolved_to_unique envAccept emptyBus 5 (some 5) none none none []
      "org.example.Foo" ":1.42" (by decide) (by decide) rfl⟩

/-- Each subscription appends at most one rule string to the daemon-side
state and removes none. -/
theorem add_daemonRules_mono (env : Env) (st : BusState) (h : Nat)
    (sn di ns p : Option String) (kws : List (String × String)) :
    ∃ l, (add_signal_receiver env st h sn di ns p kws).2.1.daemonRules
      = st.daemonRules ++ l ∧ l.length ≤ 1 := by
  rcases add_cases env ns kws with ⟨msg, hkw⟩ | ⟨d, e, ev, hkw, hres⟩ |
    ⟨d, ns2, ev, hkw, hres⟩
  · rw [add_kwError_eq env st h sn di ns p kws msg hkw]
    exact ⟨[], by simp, by simp⟩
  · rw [add_resError_eq env st h sn di ns p kws d e ev hkw hres]
    exact ⟨[], by simp, by simp⟩
  · cases hacc : env.daemonAccepts (reprRule (builtRule sn di ns2 p kws d h)) with
    | true =>
      rw [add_ok_eq env st h sn di ns p kws d ns2 ev hkw hres hacc]
      exact ⟨[reprRule (builtRule sn di ns2 p kws d h)], rfl, by simp⟩
    | false =>
      rw [add_rej_eq env st h sn di ns p kws d ns2 ev hkw hres hacc]
      exact ⟨[], by simp, by simp⟩

/-- An unsubscription never touches the daemon-side rule state. -/
theorem remove_daemonRules_eq (env : Env) (st : BusState) (hr : Option Nat)
    (sn di ns p : Option String) (kws : List (String × String)) :
    (remove_signal_receiver env st hr sn di ns p kws).2.1.daemonRules
      = st.daemonRules := by
  rcases add_cases env ns kws with ⟨msg, hkw⟩ | ⟨d, e, ev, hkw, hres⟩ |
    ⟨d, ns2, ev, hkw, hres⟩
  · rw [remove_kwError_eq env st hr sn di ns p kws msg hkw]
  · rw [remove_resError_eq env st hr sn di ns p kws d e ev hkw hres]
  · rw [remove_ok_eq env st hr sn di ns p kws d ns2 ev hkw hres]

/-- Across any call sequence the daemon-side rule list only grows. -/
theorem runOps_daemonRules_isPre (env : Env) (ops : List BusOp) :
    ∀ st : BusState, st.daemonRules <+: (runOps env st ops).daemonRules := by
  induction ops with
  | nil => exact fun st => List.prefix_rfl
  | cons op rest ih =>
    intro st
    refine List.IsPrefix.trans ?_ (ih (applyOp env st op))
    cases op with
    | subscribe h sn di ns p kws =>
      obtain ⟨l, hl, _⟩ := add_daemonRules_mono env st h sn di ns p kws
      exact ⟨l, hl.symm⟩
    | unsubscribe hr sn di ns p kws =>
      rw [applyOp, remove_daemonRules_eq env st hr sn di ns p kws]

/-- C7: `remove_signal_receiver` never deregisters the daemon-side match
rule: across any sequence of subscribe/unsubscribe calls the daemon-side
rule list of the start state stays a prefix of the final one, every
unsubscription leaves it exactly unchanged, and every subscription only
appends (at most — exactly on success — one `bus_add_match` rule). -/
theorem C7_daemon_rules_grow_monotonically (env : Env) :
    (∀ (st : BusState) (ops : List BusOp),
       st.daemonRules <+: (runOps env st ops).daemonRules) ∧
    (∀ (st : BusState) (hr : Option Nat) (sn di ns p : Option String)
       (kws : List (String × String)),
       (remove_signal_receiver env st hr sn di ns p kws).2.1.daemonRules
         = st.daemonRules) ∧
    (∀ (st : BusState) (h : Nat) (sn di ns p : Option String)
       (kws : List (String × String)),
       ∃ l, (add_signal_receiver env st h sn di ns p kws).2.1.daemonRules
         = st.daemonRules ++ l ∧ l.length ≤ 1) :=
  ⟨fun st ops => runOps_daemonRules_isPre env ops st,
   fun st hr sn di ns p kws => remove_daemonRules_eq env st hr sn di ns p kws,
   fun st h sn di ns p kws => add_daemonRules_mono env st h sn di ns p kws⟩

/-- `fieldOk` decides the claims' per-field satisfaction condition. -/
theorem fieldOk_iff (pf mf : Option String) : fieldOk pf mf = true ↔ FieldSat pf mf := by
  cases pf with
  | none =>
    simp only [fieldOk, FieldSat, true_iff]
    intro v hv
    cases hv
  | some v =>
    simp only [fieldOk, beq_iff_eq, FieldSat]
    constructor
    · intro h w hw
      injection hw with hw
      exact hw ▸ h
    · intro h
      exact h v rfl

/-- `argOk` decides the claims' per-constraint condition on positional
arguments. -/
theorem argOk_iff (margs : List String) (c : Int × String) :
    argOk margs c = true ↔ 0 ≤ c.1 ∧ margs.get? c.1.toNat = some c.2 := by
  simp [argOk]

/-- The boolean matcher agrees with the claims' conjunctive matching
condition when run against the probe built from the message's own member,
interface, sender and path, and the message's arguments. -/
theorem ruleMatches_iff (p : SignalMatchRule) (m : Message) :
    ruleMatches p (mkRule m.member m.interface m.sender m.path) m.args = true
      ↔ RuleMatchesSpec p m := by
  cases hargs : p.args with
  | none =>
    simp [ruleMatches, mkRule, RuleMatchesSpec, fieldOk_iff, hargs, and_assoc]
  | some l =>
    simp [ruleMatches, mkRule, RuleMatchesSpec, fieldOk_iff, hargs, List.all_eq_true,
      argOk_iff, and_assoc]

/-- `exec_matches` performs exactly the invocations of the patterns
accepted by the matcher, in stored order. -/
theorem exec_matches_eq (tree : List SignalMatchRule) (probe : SignalMatchRule)
    (m : Message) :
    exec_matches tree probe m
      = (tree.filter (fun p => ruleMatches p probe m.args)).flatMap
          (fun p => p.handlers.map (fun h => mkInvocation p h m)) := by
  induction tree with
  | nil => rfl
  | cons p rest ih =>
    simp only [exec_matches, List.filter_cons]
    cases hm : ruleMatches p probe m.args with
    | true => simp [ih]
    | false => simp [ih]

/-- C3: a stored pattern matches an incoming signal message exactly when
every filter field present in it (signal name, interface, sender, path and
each positional constraint) is present and equal in the message, and the
dispatch of a signal message invokes exactly the callbacks of the stored
patterns satisfying this conjunctive predicate against the probe built from
the message's own member, interface, sender and path. -/
theorem C3_dispatch_exactness (st : BusState) (m : Message)
    (hsig : m.type = MESSAGE_TYPE_SIGNAL) :
    (∀ p : SignalMatchRule,
       ruleMatches p (mkRule m.member m.interface m.sender m.path) m.args = true
         ↔ RuleMatchesSpec p m) ∧
    (_signal_func st m).2.2
      = (st.tree.filter (fun p =>
           ruleMatches p (mkRule m.member m.interface m.sender m.path) m.args)).flatMap
          (fun p => p.handlers.map (fun h => mkInvocation p h m)) := by
  refine ⟨fun p => ruleMatches_iff p m, ?_⟩
  simp only [_signal_func, hsig]
  rw [if_neg (by simp)]
  exact exec_matches_eq st.tree _ m

/-- C3 witness: dispatching a concrete signal message against a bus holding
one pattern. -/
theorem C3_witness :
    sigMsg.type = MESSAGE_TYPE_SIGNAL ∧
    ((∀ p : SignalMatchRule,
        ruleMatches p (mkRule sigMsg.member sigMsg.interface sigMsg.sender sigMsg.path)
            sigMsg.args = true ↔ RuleMatchesSpec p sigMsg) ∧
     (_signal_func demoBus sigMsg).2.2
       = (demoBus.tree.filter (fun p =>
            ruleMatches p (mkRule sigMsg.member sigMsg.interface sigMsg.sender sigMsg.path)
              sigMsg.args)).flatMap
           (fun p => p.handlers.map (fun h => mkInvocation p h sigMsg))) :=
  ⟨rfl, C3_dispatch_exactness demoBus sigMsg rfl⟩

/-- After storing an instance under a bus type, looking that type up finds
it. -/
theorem lookup_insertShared_self (k v : Nat) (l : List (Nat × Nat)) :
    (insertShared k v l).lookup k = some v := by
  induction l with
  | nil => simp [insertShared, List.lookup]
  | cons hd tl ih =>
    obtain ⟨a, b⟩ := hd
    by_cases hak : a = k
    · subst hak
      simp [insertShared, List.lookup]
    · have h1 : (a == k) = false := by simp [hak]
      have h2 : (k == a) = false := by simp [Ne.symm hak]
      simp [insertShared, h1, List.lookup, h2, ih]

/-- A successful registry lookup comes from an entry of the registry. -/
theorem mem_of_lookup_eq_some (l : List (Nat × Nat)) (a b : Nat)
    (h : l.lookup a = some b) : (a, b) ∈ l := by
  induction l with
  | nil => simp at h
  | cons hd tl ih =>
    obtain ⟨k, v⟩ := hd
    by_cases hak : a = k
    · subst hak
      rw [List.lookup_cons] at h
      simp only [beq_self_eq_true] at h
      injection h with h
      exact h ▸ List.mem_cons_self (a, v) tl
    · rw [List.lookup_cons] at h
      have h2 : (a == k) = false := by simp [hak]
      rw [h2] at h
      exact List.mem_cons_of_mem _ (ih h)

/-- `Bus.__new__` with an existing shared instance returns it unchanged. -/
theorem busNew_hit (st : GlobalState) (bt j : Nat)
    (hl : st.shared.lookup bt = some j) :
    busNew st bt false = (.ok j, st) := by
  simp [busNew, hl]

/-- `Bus.__new__` with no shared instance creates, connects and stores a
fresh one. -/
theorem busNew_miss (st : GlobalState) (bt : Nat)
    (hv : isValidBusType bt = true) (hl : st.shared.lookup bt = none) :
    busNew st bt false
      = (.ok st.nextId,
         ⟨insertShared bt st.nextId st.shared, st.nextId + 1,
          st.connections ++ [st.nextId]⟩) := by
  simp [busNew, hl, hv]

/-- A private `Bus.__new__` creates and connects a fresh instance without
consulting or updating the shared registry. -/
theorem busNew_private (st : GlobalState) (bt : Nat)
    (hv : isValidBusType bt = true) :
    busNew st bt true
      = (.ok st.nextId, ⟨st.shared, st.nextId + 1, st.connections ++ [st.nextId]⟩) := by
  simp [busNew, hv]

/-- `Bus.__new__` with an unknown bus type not in the registry raises
`ValueError` and changes nothing. -/
theorem busNew_invalid (st : GlobalState) (bt : Nat) (priv : Bool)
    (hv : isValidBusType bt = false) (hl : st.shared.lookup bt = none) :
    busNew st bt priv = (.error ("invalid bus_type " ++ toString bt), st) := by
  simp [busNew, hl, hv]

/-- C8: while a shared instance for a bus identity is alive (present in the
registry after a first non-private construction), a second non-private
construction for the same identity returns that very instance and leaves
the state unchanged; a private construction never returns an existing
shared instance and is never stored in the registry. -/
theorem C8_shared_instance_registry (st : GlobalState) (bt : Nat)
    (hv : isValidBusType bt = true)
    (hwf : ∀ q ∈ st.shared, q.2 < st.nextId) :
    (∀ i st1, busNew st bt false = (.ok i, st1) →
       busNew st1 bt false = (.ok i, st1)) ∧
    (∀ i st1, busNew st bt true = (.ok i, st1) →
       st1.shared = st.shared ∧ ∀ q ∈ st.shared, q.2 ≠ i) := by
  constructor
  · intro i st1 h1
    cases hl : st.shared.lookup bt with
    | some j =>
      rw [busNew_hit st bt j hl, Prod.ext_iff] at h1
      obtain ⟨h1a, h1b⟩ := h1
      injection h1a with h1a
      subst h1a
      subst h1b
      exact busNew_hit st bt j hl
    | none =>
      rw [busNew_miss st bt hv hl, Prod.ext_iff] at h1
      obtain ⟨h1a, h1b⟩ := h1
      injection h1a with h1a
      subst h1a
      subst h1b
      exact busNew_hit _ bt st.nextId (lookup_insertShared_self bt st.nextId st.shared)
  · intro i st1 h1
    rw [busNew_private st bt hv, Prod.ext_iff] at h1
    obtain ⟨h1a, h1b⟩ := h1
    injection h1a with h1a
    subst h1a
    subst h1b
    exact ⟨rfl, fun q hq => Nat.ne_of_lt (hwf q hq)⟩

/-- C8 witness: a registry already holding the shared session-bus instance. -/
theorem C8_witness :
    isValidBusType BUS_SESSION = true ∧
    (∀ q ∈ demoGlobal.shared, q.2 < demoGlobal.nextId) ∧
    ((∀ i st1, busNew demoGlobal BUS_SESSION false = (.ok i, st1) →
        busNew st1 BUS_SESSION false = (.ok i, st1)) ∧
     (∀ i st1, busNew demoGlobal BUS_SESSION true = (.ok i, st1) →
        st1.shared = demoGlobal.shared ∧ ∀ q ∈ demoGlobal.shared, q.2 ≠ i)) :=
  ⟨by decide, by decide,
    C8_shared_instance_registry demoGlobal BUS_SESSION (by decide) (by decide)⟩

/-- C10: constructing a `Bus` with a bus type that is none of the session,
system or starter types raises `ValueError`, establishes no transport
connection and leaves the shared registry (and all process state)
unchanged — given that the registry holds only valid bus types, which every
reachable registry does since `__new__` validates before storing. -/
theorem C10_invalid_bus_type (st : GlobalState) (bt : Nat) (priv : Bool)
    (hv : isValidBusType bt = false)
    (hwf : ∀ q ∈ st.shared, isValidBusType q.1 = true) :
    busNew st bt priv = (.error ("invalid bus_type " ++ toString bt), st) := by
  have hl : st.shared.lookup bt = none := by
    cases hl : st.shared.lookup bt with
    | none => rfl
    | some j =>
      have hmem := mem_of_lookup_eq_some st.shared bt j hl
      have hq := hwf _ hmem
      rw [hv] at hq
      exact Bool.noConfusion hq
  exact busNew_invalid st bt priv hv hl

/-- C10 witness: bus type 7 against the demo registry. -/
theorem C10_witness :
    isValidBusType 7 = false ∧
    (∀ q ∈ demoGlobal.shared, isValidBusType q.1 = true) ∧
    busNew demoGlobal 7 false = (.error ("invalid bus_type " ++ toString 7), demoGlobal) :=
  ⟨by decide, by decide, C10_invalid_bus_type demoGlobal 7 false (by decide) (by decide)⟩

/-- Looking up the index just inserted finds the new value. -/
theorem lookup_insertArg_self (n : Int) (v : String) (l : List (Int × String)) :
    (insertArg n v l).lookup n = some v := by
  induction l with
  | nil => simp [insertArg, List.lookup]
  | cons hd tl ih =>
    obtain ⟨a, b⟩ := hd
    simp only [insertArg]
    by_cases h1 : n < a
    · rw [if_pos h1]
      simp [List.lookup]
    · rw [if_neg h1]
      by_cases h2 : n = a
      · rw [if_pos h2]
        simp [List.lookup]
      · rw [if_neg h2]
        rw [List.lookup_cons]
        have hna : (n == a) = false := by simp [h2]
        rw [hna]
        exact ih

/-- Inserting at one index leaves lookups at other indices unchanged. -/
theorem lookup_insertArg_ne (n m : Int) (v : String) (l : List (Int × String))
    (hmn : m ≠ n) : (insertArg n v l).lookup m = l.lookup m := by
  have hmn2 : (m == n) = false := by simp [hmn]
  induction l with
  | nil => simp [insertArg, List.lookup, hmn2]
  | cons hd tl ih =>
    obtain ⟨a, b⟩ := hd
    simp only [insertArg]
    by_cases h1 : n < a
    · rw [if_pos h1]
      rw [List.lookup_cons, hmn2, List.lookup_cons]
    · rw [if_neg h1]
      by_cases h2 : n = a
      · rw [if_pos h2]
        subst h2
        rw [List.lookup_cons, hmn2, List.lookup_cons, hmn2]
      · rw [if_neg h2]
        rw [List.lookup_cons, List.lookup_cons]
        cases hma : m == a with
        | true => rfl
        | false => exact ih

/-- A keyword list containing a malformed `arg` key or an unknown key makes
`_create_args_dict`'s loop raise `TypeError`, whatever the accumulator. -/
theorem createArgsLoop_error (kws : List (String × String)) (k v : String)
    (acc : Option (List (Int × String)))
    (hk : (k, v) ∈ kws)
    (hbad : (strStartsWith k "arg" = true ∧ pyInt (strDrop k 3) = none) ∨
            (strStartsWith k "arg" = false ∧ k ≠ "sender_keyword" ∧ k ≠ "path_keyword")) :
    ∃ msg, createArgsLoop acc kws = .error msg := by
  induction kws generalizing acc with
  | nil => cases hk
  | cons hd tl ih =>
    obtain ⟨k0, v0⟩ := hd
    by_cases h0 : strStartsWith k0 "arg" = true
    · cases hpi : pyInt (strDrop k0 3) with
      | none =>
        exact ⟨"Invalid arg index " ++ strDrop k0 3, by simp [createArgsLoop, h0, hpi]⟩
      | some n =>
        have hk2 : (k, v) ∈ tl := by
          rcases List.mem_cons.mp hk with he | ht
          · exfalso
            have hkk : k = k0 := congrArg Prod.fst he
            subst hkk
            rcases hbad with ⟨_, hnone⟩ | ⟨hfalse, _⟩
            · rw [hpi] at hnone
              exact Option.noConfusion hnone
            · rw [h0] at hfalse
              exact Bool.noConfusion hfalse
          · exact ht
        obtain ⟨msg, hmsg⟩ := ih (some (insertArg n v0 (acc.getD []))) hk2
        exact ⟨msg, by simp [createArgsLoop, h0, hpi, hmsg]⟩
    · have h0f : strStartsWith k0 "arg" = false := Bool.eq_false_iff.mpr h0
      by_cases hres : k0 = "sender_keyword" ∨ k0 = "path_keyword"
      · have hk2 : (k, v) ∈ tl := by
          rcases List.mem_cons.mp hk with he | ht
          · exfalso
            have hkk : k = k0 := congrArg Prod.fst he
            subst hkk
            rcases hbad with ⟨htrue, _⟩ | ⟨_, hs, hp⟩
            · exact h0 htrue
            · rcases hres with hres | hres
              · exact hs hres
              · exact hp hres
          · exact ht
        obtain ⟨msg, hmsg⟩ := ih acc hk2
        exact ⟨msg, by simp [createArgsLoop, h0f, hres, hmsg]⟩
      · exact ⟨"Unknown keyword " ++ k0, by simp [createArgsLoop, h0f, hres]⟩

/-- If no keyword of the list constrains index `n`, the loop's result maps
`n` exactly as the accumulator does. -/
theorem createArgsLoop_lookup_preserve (kws : List (String × String)) (n : Int)
    (acc : Option (List (Int × String))) (d : Option (List (Int × String)))
    (hno : ∀ q ∈ kws, strStartsWith q.1 "arg" = true → pyInt (strDrop q.1 3) ≠ some n)
    (hok : createArgsLoop acc kws = .ok d) :
    (d.getD []).lookup n = (acc.getD []).lookup n := by
  induction kws generalizing acc with
  | nil =>
    simp only [createArgsLoop, Except.ok.injEq] at hok
    subst hok
    rfl
  | cons hd tl ih =>
    obtain ⟨k0, v0⟩ := hd
    by_cases h0 : strStartsWith k0 "arg" = true
    · cases hpi : pyInt (strDrop k0 3) with
      | none => simp [createArgsLoop, h0, hpi] at hok
      | some m =>
        have hmn : m ≠ n := by
          intro he
          subst he
          exact hno (k0, v0) (List.mem_cons_self _ _) h0 hpi
        simp only [createArgsLoop, h0, if_true, hpi] at hok
        have hstep := ih (some (insertArg m v0 (acc.getD [])))
          (fun q hq => hno q (List.mem_cons_of_mem _ hq)) hok
        rw [hstep]
        exact lookup_insertArg_ne m n v0 (acc.getD []) (Ne.symm hmn)
    · have h0f : strStartsWith k0 "arg" = false := Bool.eq_false_iff.mpr h0
      by_cases hres : k0 = "sender_keyword" ∨ k0 = "path_keyword"
      · simp only [createArgsLoop, h0f, Bool.false_eq_true, if_false, hres, if_true] at hok
        exact ih acc (fun q hq => hno q (List.mem_cons_of_mem _ hq)) hok
      · simp [createArgsLoop, h0f, hres] at hok

/-- If `(k, v)` is the unique keyword constraining index `n`, the loop's
result maps `n` to `v`. -/
theorem createArgsLoop_lookup_unique (kws : List (String × String)) (n : Int)
    (k v : String) (acc : Option (List (Int × String)))
    (d : Option (List (Int × String)))
    (hfil : kws.filter
        (fun q => strStartsWith q.1 "arg" && (pyInt (strDrop q.1 3) == some n))
        = [(k, v)])
    (hok : createArgsLoop acc kws = .ok d) :
    (d.getD []).lookup n = some v := by
  induction kws generalizing acc with
  | nil => simp at hfil
  | cons hd tl ih =>
    obtain ⟨k0, v0⟩ := hd
    rw [List.filter_cons] at hfil
    by_cases hp : (strStartsWith k0 "arg" && (pyInt (strDrop k0 3) == some n)) = true
    · rw [if_pos hp] at hfil
      injection hfil with hfe hft
      have hpre : strStartsWith k0 "arg" = true := by
        cases hsw : strStartsWith k0 "arg" with
        | true => rfl
        | false => rw [hsw] at hp; simp at hp
      have hpi : pyInt (strDrop k0 3) = some n := by
        have hp2 := hp
        rw [hpre] at hp2
        simpa using hp2
      simp only [createArgsLoop, hpre, if_true, hpi] at hok
      have hnone : ∀ q ∈ tl, strStartsWith q.1 "arg" = true →
          pyInt (strDrop q.1 3) ≠ some n := by
        intro q hq hqa hqn
        have : (strStartsWith q.1 "arg" && (pyInt (strDrop q.1 3) == some n)) = true := by
          rw [hqa, hqn]
          simp
        have hmem : q ∈ tl.filter
            (fun q => strStartsWith q.1 "arg" && (pyInt (strDrop q.1 3) == some n)) :=
          List.mem_filter.mpr ⟨hq, this⟩
        rw [hft] at hmem
        cases hmem
      have hstep := createArgsLoop_lookup_preserve tl n
        (some (insertArg n v0 (acc.getD []))) d hnone hok
      rw [hstep]
      have hv0 : v0 = v := congrArg Prod.snd hfe
      rw [show ((some (insertArg n v0 (acc.getD []))).getD []) = insertArg n v0 (acc.getD []) from rfl,
        lookup_insertArg_self, hv0]
    · rw [if_neg hp] at hfil
      by_cases h0 : strStartsWith k0 "arg" = true
      · cases hpi : pyInt (strDrop k0 3) with
        | none => simp [createArgsLoop, h0, hpi] at hok
        | some m =>
          simp only [createArgsLoop, h0, if_true, hpi] at hok
          exact ih (some (insertArg m v0 (acc.getD []))) hfil hok
      · have h0f : strStartsWith k0 "arg" = false := Bool.eq_false_iff.mpr h0
        by_cases hres : k0 = "sender_keyword" ∨ k0 = "path_keyword"
        · simp only [createArgsLoop, h0f, Bool.false_eq_true, if_false, hres,
            if_true] at hok
          exact ih acc hfil hok
        · simp [createArgsLoop, h0f, hres] at hok

/-- C5 counterexample: the suffix `-1` cannot be parsed into a non-negative
index, yet the subscription call succeeds and creates a pattern carrying a
constraint at index `-1` — refuting the claimed synchronous failure at this
concrete input. -/
theorem C5_counterexample :
    strStartsWith "arg-1" "arg" = true ∧
    pyInt (strDrop "arg-1" 3) = some (-1) ∧
    (add_signal_receiver envAccept emptyBus 3 none none none none [("arg-1", "v")]).1
      = .ok () ∧
    (add_signal_receiver envAccept emptyBus 3 none none none none
        [("arg-1", "v")]).2.1.tree.map SignalMatchRule.args = [some [(-1, "v")]] :=
  ⟨by decide, by decide, rfl, by decide⟩

/-- C5 (amended): for every `arg`-prefixed keyword, if the suffix cannot be
parsed as an integer (sign permitted) the call raises `TypeError`
synchronously with no pattern inserted and no daemon rule registered;
otherwise the parsed integer index — which may be negative — maps to the
required exact value in the positional constraints of the inserted
pattern. -/
theorem C5_arg_keyword_parsing (env : Env) (st : BusState) (h : Nat)
    (sn di ns p : Option String) (kws : List (String × String))
    (k v : String) (n : Int)
    (hk : (k, v) ∈ kws) (hpre : strStartsWith k "arg" = true) :
    (pyInt (strDrop k 3) = none →
       ∃ msg, add_signal_receiver env st h sn di ns p kws
         = (.error (.typeError msg), st, [])) ∧
    (pyInt (strDrop k 3) = some n →
     kws.filter (fun q => strStartsWith q.1 "arg" && (pyInt (strDrop q.1 3) == some n))
         = [(k, v)] →
     (add_signal_receiver env st h sn di ns p kws).1 = .ok () →
     ∃ r, (add_signal_receiver env st h sn di ns p kws).2.1.tree = st.tree ++ [r] ∧
       (r.args.getD []).lookup n = some v) := by
  constructor
  · intro hnone
    obtain ⟨msg, hmsg⟩ := createArgsLoop_error kws k v none hk (Or.inl ⟨hpre, hnone⟩)
    exact ⟨msg, add_kwError_eq env st h sn di ns p kws msg hmsg⟩
  · intro hsome hfil hok
    rcases add_cases env ns kws with ⟨msg, hkw⟩ | ⟨d, e, ev, hkw, hres⟩ |
      ⟨d, ns2, ev, hkw, hres⟩
    · rw [add_kwError_eq env st h sn di ns p kws msg hkw] at hok
      simp at hok
    · rw [add_resError_eq env st h sn di ns p kws d e ev hkw hres] at hok
      simp at hok
    · cases hacc : env.daemonAccepts (reprRule (builtRule sn di ns2 p kws d h)) with
      | false =>
        rw [add_rej_eq env st h sn di ns p kws d ns2 ev hkw hres hacc] at hok
        simp at hok
      | true =>
        rw [add_ok_eq env st h sn di ns p kws d ns2 ev hkw hres hacc]
        refine ⟨builtRule sn di ns2 p kws d h, rfl, ?_⟩
        have hlk : (d.getD []).lookup n = some v :=
          createArgsLoop_lookup_unique kws n k v none d hfil hkw
        cases d with
        | none => simp [List.lookup] at hlk
        | some d2 =>
          have hne : d2 ≠ [] := by
            intro he
            subst he
            simp [List.lookup] at hlk
          have hargs : (builtRule sn di ns2 p kws (some d2) h).args = some d2 := by
            cases d2 with
            | nil => exact absurd rfl hne
            | cons x xs => simp [builtRule, applyArgsDict, addArgsMatch, addHandler]
          rw [hargs]
          exact hlk

/-- C5 witness: `argfoo` raises `TypeError` with nothing created, while
`arg0` creates a pattern whose constraints map index 0 to the value. -/
theorem C5_witness :
    (("argfoo", "x") ∈ [("argfoo", "x")] ∧ strStartsWith "argfoo" "arg" = true ∧
     pyInt (strDrop "argfoo" 3) = none ∧
     ∃ msg, add_signal_receiver envAccept emptyBus 3 none none none none [("argfoo", "x")]
       = (.error (.typeError msg), emptyBus, [])) ∧
    (("arg0", "val") ∈ [("arg0", "val")] ∧ strStartsWith "arg0" "arg" = true ∧
     pyInt (strDrop "arg0" 3) = some 0 ∧
     [("arg0", "val")].filter
        (fun q => strStartsWith q.1 "arg" && (pyInt (strDrop q.1 3) == some 0))
        = [("arg0", "val")] ∧
     (add_signal_receiver envAccept emptyBus 3 none none none none [("arg0", "val")]).1
        = .ok () ∧
     ∃ r, (add_signal_receiver envAccept emptyBus 3 none none none none
          [("arg0", "val")]).2.1.tree = emptyBus.tree ++ [r] ∧
        (r.args.getD []).lookup 0 = some "val") :=
  ⟨⟨by decide, by decide, by decide,
     (C5_arg_keyword_parsing envAccept emptyBus 3 none none none none [("argfoo", "x")]
        "argfoo" "x" 0 (by decide) (by decide)).1 (by decide)⟩,
   ⟨by decide, by decide, by decide, by decide, rfl,
     (C5_arg_keyword_parsing envAccept emptyBus 3 none none none none [("arg0", "val")]
        "arg0" "val" 0 (by decide) (by decide)).2 (by decide) (by decide) rfl⟩⟩

/-- C9: a keyword argument that is neither `sender_keyword` nor
`path_keyword` and does not start with `arg` makes both
`add_signal_receiver` and `remove_signal_receiver` raise `TypeError` with
the state unchanged and no side effect — before any name resolution,
pattern construction, index mutation or daemon registration. -/
theorem C9_unknown_keyword_rejected (env : Env) (st : BusState) (h : Nat)
    (hr : Option Nat) (sn di ns p : Option String)
    (kws : List (String × String)) (k v : String)
    (hk : (k, v) ∈ kws)
    (h1 : strStartsWith k "arg" = false)
    (h2 : k ≠ "sender_keyword") (h3 : k ≠ "path_keyword") :
    (∃ msg, add_signal_receiver env st h sn di ns p kws
       = (.error (.typeError msg), st, [])) ∧
    (∃ msg, remove_signal_receiver env st hr sn di ns p kws
       = (.error (.typeError msg), st, [])) := by
  obtain ⟨msg, hmsg⟩ := createArgsLoop_error kws k v none hk (Or.inr ⟨h1, h2, h3⟩)
  exact ⟨⟨msg, add_kwError_eq env st h sn di ns p kws msg hmsg⟩,
    ⟨msg, remove_kwError_eq env st hr sn di ns p kws msg hmsg⟩⟩

/-- C9 witness: the unknown keyword `bogus`. -/
theorem C9_witness :
    ("bogus", "x") ∈ [("bogus", "x")] ∧
    strStartsWith "bogus" "arg" = false ∧
    "bogus" ≠ "sender_keyword" ∧ "bogus" ≠ "path_keyword" ∧
    ((∃ msg, add_signal_receiver envAccept emptyBus 7 none none none none
        [("bogus", "x")] = (.error (.typeError msg), emptyBus, [])) ∧
     (∃ msg, remove_signal_receiver envAccept emptyBus (some 7) none none none none
        [("bogus", "x")] = (.error (.typeError msg), emptyBus, []))) :=
  ⟨by decide, by decide, by decide, by decide,
    C9_unknown_keyword_rejected envAccept emptyBus 7 (some 7) none none none none
      [("bogus", "x")] "bogus" "x" (by decide) (by decide) (by decide) (by decide)⟩

end DBusSpec
